import Mathlib

/-!
Verification of the concurrentiecheck-westerbergen scraping engine: a shallow
embedding of the price-store upsert and comparison query (`database.py`), the
date-window generator, retry orchestrator and rate limiter
(`scrapers/base_scraper.py`), the grid adapter's year resolution
(`scrapers/beerze_bulten.py`), and the night-count filters of the REST-batch
adapter (`scrapers/holidayagent_scraper.py`) and the rendered-matrix adapter
(`scrapers/witter_zomer.py`).

Calendar dates are represented by their proleptic-Gregorian ordinal day number
(Python's `date.toordinal`); ISO `YYYY-MM-DD` strings biject with ordinals and
compare identically, and SQLite's `julianday(b) - julianday(a)` on two such
date strings equals the ordinal difference.  Monetary amounts (SQL `REAL`) are
represented by `ℚ`, Python `None` / SQL `NULL` by `Option`, and capture
instants (`scrape_timestamp`) by an abstract integer timeline.
-/

namespace ConcurrentieCheck

/-- One row of the `prices` table (schema in `Database._init_db`). -/
structure PriceRow where
  competitor_name : String
  accommodation_type : String
  check_in_date : Int
  check_out_date : Int
  price : Option ℚ
  available : Bool
  min_nights : Option Int
  special_offers : Option String
  persons : Int
  scrape_timestamp : Int
  scrape_date : Int
deriving DecidableEq, Repr

/-- The UNIQUE key of the `prices` table:
`(competitor_name, check_in_date, check_out_date, scrape_date)`. -/
def rowKey (r : PriceRow) : String × Int × Int × Int :=
  (r.competitor_name, r.check_in_date, r.check_out_date, r.scrape_date)

/-- The row `Database.save_price` tries to INSERT.  `scrape_timestamp` (`ts`)
and `scrape_date` (`day`) come from `datetime.now()` inside `save_price`; the
caller has no parameter for them. -/
def incomingRow (cn acc : String) (ci co : Int) (p : Option ℚ) (av : Bool)
    (mn : Option Int) (so : Option String) (pers ts day : Int) : PriceRow :=
  { competitor_name := cn
    accommodation_type := acc
    check_in_date := ci
    check_out_date := co
    price := p
    available := av
    min_nights := mn
    special_offers := so
    persons := pers
    scrape_timestamp := ts
    scrape_date := day }

/-- The `DO UPDATE SET` clause of `save_price`: `price` and `available` are
overwritten only when the incoming (`excluded`) price is non-NULL; the other
mutable fields are overwritten unconditionally.  Key fields (and hence
`scrape_date`) are not listed in the SET clause. -/
def upsertUpdate (old incoming : PriceRow) : PriceRow :=
  { old with
    price := if incoming.price.isSome then incoming.price else old.price
    available := if incoming.price.isSome then incoming.available else old.available
    min_nights := incoming.min_nights
    special_offers := incoming.special_offers
    accommodation_type := incoming.accommodation_type
    persons := incoming.persons
    scrape_timestamp := incoming.scrape_timestamp }

/-- `Database.save_price`: insert the incoming row, or on a conflict of the
UNIQUE key apply the `DO UPDATE SET` merge to the conflicting stored row
(SQLite updates the row in place; row order is preserved). -/
def save_price (store : List PriceRow) (cn acc : String) (ci co : Int)
    (p : Option ℚ) (av : Bool) (mn : Option Int) (so : Option String)
    (pers ts day : Int) : List PriceRow :=
  if ∃ r ∈ store, rowKey r = rowKey (incomingRow cn acc ci co p av mn so pers ts day) then
    store.map (fun r =>
      if rowKey r = rowKey (incomingRow cn acc ci co p av mn so pers ts day) then
        upsertUpdate r (incomingRow cn acc ci co p av mn so pers ts day)
      else r)
  else
    store ++ [incomingRow cn acc ci co p av mn so pers ts day]

/-- The `ORDER BY check_in_date, competitor_name` ordering of
`get_comparison_data`. -/
def comparisonLE (a b : PriceRow) : Prop :=
  a.check_in_date < b.check_in_date ∨
    (a.check_in_date = b.check_in_date ∧ a.competitor_name ≤ b.competitor_name)

instance : DecidableRel comparisonLE := by
  unfold comparisonLE
  infer_instance

instance : IsTotal PriceRow comparisonLE := by
  constructor
  intro a b
  unfold comparisonLE
  rcases lt_trichotomy a.check_in_date b.check_in_date with h | h | h
  · exact Or.inl (Or.inl h)
  · rcases le_total a.competitor_name b.competitor_name with hs | hs
    · exact Or.inl (Or.inr ⟨h, hs⟩)
    · exact Or.inr (Or.inr ⟨h.symm, hs⟩)
  · exact Or.inr (Or.inl h)

instance : IsTrans PriceRow comparisonLE := by
  constructor
  intro a b c hab hbc
  unfold comparisonLE at *
  rcases hab with h1 | ⟨h1, hs1⟩
  · rcases hbc with h2 | ⟨h2, _⟩
    · exact Or.inl (h1.trans h2)
    · exact Or.inl (h2 ▸ h1)
  · rcases hbc with h2 | ⟨h2, hs2⟩
    · exact Or.inl (h1 ▸ h2)
    · exact Or.inr ⟨h1.trans h2, hs1.trans hs2⟩

/-- `Database.get_comparison_data`: rows of one scrape day with non-NULL price
whose night count — SQLite
`CAST(ROUND(julianday(check_out_date) - julianday(check_in_date)) AS INTEGER)`,
i.e. the ordinal difference of the two dates — lies in `durations`, ordered by
(check_in_date, competitor_name).  (The Python default for `durations` is
`[2, 3, 4, 7]`; the SQL projects a fixed subset of columns plus the computed
`nights`, which does not affect which rows are selected, so the selected rows
themselves are returned here.) -/
def get_comparison_data (store : List PriceRow) (scrapeDay : Int)
    (durations : List Int) : List PriceRow :=
  List.insertionSort comparisonLE
    (store.filter (fun r =>
      decide (r.scrape_date = scrapeDay ∧ r.price ≠ none ∧
        (r.check_out_date - r.check_in_date) ∈ durations)))

/-- The value produced by one `scrape_price` call inside the retry loop of
`BaseScraper.run`: a parsed result dict (with the fields the abstract method
promises), `None` ("scraping failed entirely" per its doc string), a
`PlaywrightTimeout`, or any other exception. -/
inductive AttemptOutcome where
  | ok (price : Option ℚ) (available : Bool) (min_nights : Option Int)
      (special_offers : Option String)
  | noResult
  | timeout
  | failure
deriving DecidableEq, Repr

/-- The record dict `BaseScraper.run` assembles and persists via
`db.save_price` when `scrape_price` returns a result. -/
structure ScrapeRecord where
  competitor_name : String
  accommodation_type : String
  check_in_date : Int
  check_out_date : Int
  price : Option ℚ
  available : Bool
  min_nights : Option Int
  special_offers : Option String
  persons : Int
deriving DecidableEq, Repr

/-- One date window as processed by `BaseScraper.run`, together with what
`scrape_price` does on attempt 1, 2, …; `run` consumes the first
`max_retries` entries, so the list is given with length `max_retries`. -/
structure DateWindowRun where
  check_in : Int
  check_out : Int
  attempts : List AttemptOutcome
deriving DecidableEq, Repr

/-- One row of the `scrape_log` table as written by `db.log_scrape` at the end
of a run (the optional error message and duration are elided; the claims
concern status and record count). -/
structure LogEntry where
  competitor_name : String
  status : String
  records_scraped : Nat
deriving DecidableEq, Repr

/-- The record built from a successful `scrape_price` result in
`BaseScraper.run`. -/
def mkRunRecord (cn acc : String) (pers : Int) (ci co : Int) (p : Option ℚ)
    (av : Bool) (mn : Option Int) (so : Option String) : ScrapeRecord :=
  { competitor_name := cn
    accommodation_type := acc
    check_in_date := ci
    check_out_date := co
    price := p
    available := av
    min_nights := mn
    special_offers := so
    persons := pers }

/-- The inner `for attempt in range(1, self.max_retries + 1)` loop of
`BaseScraper.run` for one date window.  The list holds the outcome of each
potential attempt, so the last list element is attempt `max_retries`.
Returns (number of attempts actually performed, the record persisted on
success — the loop `break`s —, the amount the run's `errors` counter grows).
An exception (timeout or otherwise) on the final attempt adds one error;
`scrape_price` returning `None` falls through every branch and never touches
the error counter or breaks the loop. -/
def retryLoop (cn acc : String) (pers : Int) (ci co : Int) :
    List AttemptOutcome → Nat × Option ScrapeRecord × Nat
  | [] => (0, none, 0)
  | [o] =>
    match o with
    | .ok p av mn so => (1, some (mkRunRecord cn acc pers ci co p av mn so), 0)
    | .noResult => (1, none, 0)
    | .timeout => (1, none, 1)
    | .failure => (1, none, 1)
  | o :: o2 :: rest =>
    match o with
    | .ok p av mn so => (1, some (mkRunRecord cn acc pers ci co p av mn so), 0)
    | _ =>
      let t := retryLoop cn acc pers ci co (o2 :: rest)
      (t.1 + 1, t.2.1, t.2.2)

/-- The window loop of `BaseScraper.run`: every window is processed through
the retry loop in order; saved records and error increments accumulate across
windows (a window that exhausts its retries never aborts the run). -/
def runWindows (cn acc : String) (pers : Int) :
    List DateWindowRun → List ScrapeRecord × Nat
  | [] => ([], 0)
  | w :: ws =>
    let t := retryLoop cn acc pers w.check_in w.check_out w.attempts
    let rest := runWindows cn acc pers ws
    (t.2.1.toList ++ rest.1, t.2.2 + rest.2)

/-- The run classification of `BaseScraper.run`:
`status = "success" if errors == 0 else "partial" if results else "failed"`
(Python truthiness of `results` = non-empty list). -/
def runStatus (errors : Nat) (results : List ScrapeRecord) : String :=
  if errors = 0 then "success" else if results ≠ [] then "partial" else "failed"

/-- `BaseScraper.run`: process all windows, then call `db.log_scrape` exactly
once with the computed status and the captured record count.  Returns
(records, error counter, scrape-log rows written by this run). -/
def run (cn acc : String) (pers : Int) (windows : List DateWindowRun) :
    List ScrapeRecord × Nat × List LogEntry :=
  let t := runWindows cn acc pers windows
  (t.1, t.2, [⟨cn, runStatus t.2 t.1, t.1.length⟩])

/-- One departure option of one arrival entry in the HolidayAgent arrivals
JSON, already parsed out of the dict: `dep_date` is `None` when
`datetime.strptime` on the `date` field raises (the inner `except` then skips
the departure). -/
structure HADeparture where
  dep_date : Option Int
  nights : Int
  totalPrice : Option ℚ
  additionalPrice : ℚ
  discountPrice : ℚ
  amountAvailable : Int
deriving DecidableEq, Repr

/-- One arrival entry: the parsed arrival date (`None` when the `date` field
is missing or unparseable, in which case the loop `continue`s) and its
departure options. -/
structure HAArrival where
  arrival_date : Option Int
  departures : List HADeparture
deriving DecidableEq, Repr

/-- The per-departure body of `HolidayAgentScraper.run_efficient`: compute the
all-in price (`totalPrice + additionalPrice` when the surcharge is non-zero),
drop night counts outside `(2, 3, 4, 5, 7)`, then build the record persisted
via `db.save_price`.  (The special-offer text interpolates the discount
amount; the marker string stands for it here.)  Returns `none` when the
departure is skipped. -/
def haDepartureRecord (cn acc : String) (pers : Int) (checkin : Int)
    (d : HADeparture) : Option ScrapeRecord :=
  let total : Option ℚ :=
    match d.totalPrice with
    | none => none
    | some b => if d.additionalPrice ≠ 0 then some (b + d.additionalPrice) else some b
  if d.nights ∈ ([2, 3, 4, 5, 7] : List Int) then
    match d.dep_date with
    | none => none
    | some co =>
      some { competitor_name := cn
             accommodation_type := acc
             check_in_date := checkin
             check_out_date := co
             price := total
             available := decide (0 < d.amountAvailable) && total.isSome
             min_nights := some d.nights
             special_offers := if 0 < d.discountPrice then some "Korting" else none
             persons := pers }
  else none

/-- The arrivals loop of `HolidayAgentScraper.run_efficient`.  A `none` entry
marks an arrival whose processing raises outside the inner per-departure
`try` (e.g. a malformed entry, or the initial API call failing before any
entry): the surrounding `try`/`except` catches it, increments `errors` once,
and the loop never resumes — entries after it are not reached, records
persisted before it are kept. -/
def haLoop (cn acc : String) (pers : Int) :
    List (Option HAArrival) → List ScrapeRecord × Nat
  | [] => ([], 0)
  | none :: _ => ([], 1)
  | some a :: rest =>
    match a.arrival_date with
    | none => haLoop cn acc pers rest
    | some checkin =>
      let recs := a.departures.filterMap (haDepartureRecord cn acc pers checkin)
      let t := haLoop cn acc pers rest
      (recs ++ t.1, t.2)

/-- The run classification of `HolidayAgentScraper.run_efficient`:
`status = "success" if errors == 0 else "failed"` — there is no `"partial"`
branch in this variant. -/
def haStatus (errors : Nat) : String :=
  if errors = 0 then "success" else "failed"

/-- `HolidayAgentScraper.run_efficient`: process the arrivals, then call
`db.log_scrape` exactly once.  Returns (records, error counter, scrape-log
rows written by this run). -/
def run_efficient (cn acc : String) (pers : Int)
    (arrivals : List (Option HAArrival)) :
    List ScrapeRecord × Nat × List LogEntry :=
  let t := haLoop cn acc pers arrivals
  (t.1, t.2, [⟨cn, haStatus t.2, t.1.length⟩])

/-- One record parsed from the rendered BoekingPro matrix by
`WitterZomerScraper._parse_widget_matrix` (already normalized: the widget rows
yield check-in/check-out, a price, the duration as `min_nights`, and an
optional special-offer annotation; `available` is always `True` there). -/
structure WZParsed where
  check_in_date : Int
  check_out_date : Int
  price : ℚ
  min_nights : Int
  special_offers : Option String
deriving DecidableEq, Repr

/-- `WitterZomerScraper.STAY_DURATIONS`. -/
def STAY_DURATIONS : List Int := [2, 3, 4, 7]

/-- The per-page record loop of `WitterZomerScraper.run_efficient`: skip
records whose `min_nights` is outside `STAY_DURATIONS`, skip
(check-in, check-out) keys already in `seen_keys`, persist the rest via
`db.save_price`.  Returns the persisted records and the updated seen-key set. -/
def wzPageLoop (cn acc : String) (pers : Int) :
    List WZParsed → List (Int × Int) → List ScrapeRecord × List (Int × Int)
  | [], seen => ([], seen)
  | r :: rs, seen =>
    if r.min_nights ∈ STAY_DURATIONS then
      if (r.check_in_date, r.check_out_date) ∈ seen then
        wzPageLoop cn acc pers rs seen
      else
        let t := wzPageLoop cn acc pers rs ((r.check_in_date, r.check_out_date) :: seen)
        ({ competitor_name := cn
           accommodation_type := acc
           check_in_date := r.check_in_date
           check_out_date := r.check_out_date
           price := some r.price
           available := true
           min_nights := some r.min_nights
           special_offers := r.special_offers
           persons := pers } :: t.1, t.2)
    else wzPageLoop cn acc pers rs seen

/-- The pagination loop of `WitterZomerScraper.run_efficient` over the parsed
matrix pages, threading `seen_keys` across pages.  (The real loop may stop
early on the horizon or a missing next button; stopping early only truncates
the page list.) -/
def wzRun (cn acc : String) (pers : Int) :
    List (List WZParsed) → List (Int × Int) → List ScrapeRecord
  | [], _ => []
  | pg :: pgs, seen =>
    let t := wzPageLoop cn acc pers pg seen
    t.1 ++ wzRun cn acc pers pgs t.2

/-- The weekday names accepted by `day_map` in
`BaseScraper.generate_check_dates`. -/
inductive Weekday where
  | monday
  | tuesday
  | wednesday
  | thursday
  | friday
  | saturday
  | sunday
deriving DecidableEq, Repr

/-- `day_map` in `generate_check_dates`: Monday = 0 … Sunday = 6. -/
def day_map : Weekday → Int
  | .monday => 0
  | .tuesday => 1
  | .wednesday => 2
  | .thursday => 3
  | .friday => 4
  | .saturday => 5
  | .sunday => 6

/-- Python `date.weekday()` on an ordinal day number: Monday = 0, and
`date(1, 1, 1)` (ordinal 1) is a Monday.  Python `%` and Lean `Int.emod`
agree on the non-negative result for a positive modulus. -/
def pyWeekday (ordinal : Int) : Int := (ordinal - 1) % 7

/-- One named stay template: anchor weekday and night count
(`stay_types` values in `generate_check_dates`). -/
structure StayConfig where
  check_in_day : Weekday
  nights : Int
deriving DecidableEq, Repr

/-- One generated date window (ephemeral; dates are ordinals). -/
structure DateWindow where
  check_in : Int
  check_out : Int
  stay_type : String
  nights : Int
deriving DecidableEq, Repr

/-- The deduplication key `(d["check_in"], d["check_out"])` used in
`generate_check_dates`. -/
def windowKey (w : DateWindow) : Int × Int := (w.check_in, w.check_out)

/-- The `seen`-set duplicate filter of `generate_check_dates`: keep the first
occurrence of each (check_in, check_out) key. -/
def dedupWindows : List DateWindow → List (Int × Int) → List DateWindow
  | [], _ => []
  | d :: ds, seen =>
    if windowKey d ∈ seen then dedupWindows ds seen
    else d :: dedupWindows ds (windowKey d :: seen)

instance : DecidableRel (fun a b : DateWindow => a.check_in ≤ b.check_in) :=
  fun a b => Int.decLe a.check_in b.check_in

instance : IsTotal DateWindow (fun a b : DateWindow => a.check_in ≤ b.check_in) :=
  ⟨fun a b => Int.le_total a.check_in b.check_in⟩

instance : IsTrans DateWindow (fun a b : DateWindow => a.check_in ≤ b.check_in) :=
  ⟨fun _ _ _ h1 h2 => le_trans h1 h2⟩

/-- The raw `dates` list built by the nested loops of
`BaseScraper.generate_check_dates` before deduplication: for every
"days ahead" offset and stay template, the next occurrence of the anchor
weekday on/after `target = today + offset`
(`days_until = (target_day - target.weekday()) % 7`), paired with
`check_in + nights`. -/
def rawWindows (today : Int) (days_ahead_list : List Int)
    (stay_types : List (String × StayConfig)) : List DateWindow :=
  (days_ahead_list.map (fun days_ahead =>
    let target := today + days_ahead
    stay_types.map (fun st =>
      let target_day := day_map st.2.check_in_day
      let days_until := (target_day - pyWeekday target) % 7
      let check_in := target + days_until
      { check_in := check_in
        check_out := check_in + st.2.nights
        stay_type := st.1
        nights := st.2.nights : DateWindow }))).flatten

/-- `BaseScraper.generate_check_dates` with an explicit `today`: the raw
window list, then the `seen`-set duplicate filter, then
`sorted(…, key=lambda x: x["check_in"])` (Python's sort is stable;
`List.insertionSort` has the same stable semantics). -/
def generate_check_dates (today : Int) (days_ahead_list : List Int)
    (stay_types : List (String × StayConfig)) : List DateWindow :=
  List.insertionSort (fun a b => a.check_in ≤ b.check_in)
    (dedupWindows (rawWindows today days_ahead_list stay_types) [])

/-- Proleptic-Gregorian leap year, as Python's `datetime` uses. -/
def isLeapYear (y : Int) : Bool :=
  (y % 4 == 0 && y % 100 != 0) || y % 400 == 0

/-- Number of days in month `m` of year `y` (for `m ∈ [1, 12]`). -/
def daysInMonth (y m : Int) : Int :=
  if m = 2 then (if isLeapYear y then 29 else 28)
  else if m ∈ ([4, 6, 9, 11] : List Int) then 30
  else 31

/-- Whether `datetime(y, m, d)` succeeds (no `ValueError`): year within
Python's `MINYEAR`, month and day in range. -/
def isValidDate (y m d : Int) : Prop :=
  1 ≤ y ∧ 1 ≤ m ∧ m ≤ 12 ∧ 1 ≤ d ∧ d ≤ daysInMonth y m

instance (y m d : Int) : Decidable (isValidDate y m d) := by
  unfold isValidDate
  infer_instance

/-- Days before month `m` in a non-leap year. -/
def daysBeforeMonth (m : Int) : Int :=
  if m ≤ 1 then 0
  else if m = 2 then 31
  else if m = 3 then 59
  else if m = 4 then 90
  else if m = 5 then 120
  else if m = 6 then 151
  else if m = 7 then 181
  else if m = 8 then 212
  else if m = 9 then 243
  else if m = 10 then 273
  else if m = 11 then 304
  else 334

/-- Python's `date.toordinal`: the proleptic-Gregorian day number of
`(y, m, d)`, with `date(1, 1, 1).toordinal() = 1`.  `datetime` subtraction
(`.days`) equals the difference of ordinals. -/
def toOrdinal (y m d : Int) : Int :=
  365 * (y - 1) + (y - 1) / 4 - (y - 1) / 100 + (y - 1) / 400
    + daysBeforeMonth m + (if 3 ≤ m ∧ isLeapYear y then 1 else 0) + d

/-- `month_map` in `BeerzeBultenScraper._resolve_date` (Dutch month
abbreviations, matched lowercase). -/
def month_map : String → Option Int
  | "jan" => some 1
  | "feb" => some 2
  | "mrt" => some 3
  | "apr" => some 4
  | "mei" => some 5
  | "jun" => some 6
  | "jul" => some 7
  | "aug" => some 8
  | "sep" => some 9
  | "okt" => some 10
  | "nov" => some 11
  | "dec" => some 12
  | _ => none

/-- The year-candidate loop of `_resolve_date`:
`for year in [ref.year, ref.year + 1]`, skip candidates where `datetime`
raises `ValueError`, keep the candidate whose absolute day distance to the
reference is strictly smaller than the best so far.  `best` carries
(candidate ordinal, distance). -/
def bestCandidate (month day refOrd : Int) :
    List Int → Option (Int × Int) → Option (Int × Int)
  | [], best => best
  | y :: ys, best =>
    if isValidDate y month day then
      match best with
      | none =>
        bestCandidate month day refOrd ys
          (some (toOrdinal y month day, |toOrdinal y month day - refOrd|))
      | some b =>
        if |toOrdinal y month day - refOrd| < b.2 then
          bestCandidate month day refOrd ys
            (some (toOrdinal y month day, |toOrdinal y month day - refOrd|))
        else bestCandidate month day refOrd ys (some b)
    else bestCandidate month day refOrd ys best

/-- `BeerzeBultenScraper._resolve_date` on an already-matched header
`(day, month abbreviation)` — the regex part only extracts these two groups —
and a reference date `(refY, refM, refD)`: resolve the header to the ordinal
of the candidate date with year in {reference year, reference year + 1}
closest to the reference date, or `None` when the month abbreviation is
unknown or both candidate dates are invalid. -/
def resolve_date (day : Int) (monthStr : String) (refY refM refD : Int) :
    Option Int :=
  match month_map monthStr with
  | none => none
  | some month =>
    (bestCandidate month day (toOrdinal refY refM refD) [refY, refY + 1] none).map
      Prod.fst

/-- State threaded through `BaseScraper._wait_rate_limit`: the current
wall-clock reading and `_last_request_time`.  Real time is modeled as an
explicit monotone clock: the environment chooses how much time passes between
events, and `time.sleep w` advances the clock by at least `w`. -/
structure RateLimiterState where
  clock : ℚ
  last : ℚ
deriving DecidableEq, Repr

/-- `BaseScraper._wait_rate_limit`: read the clock (`d1 ≥ 0` is the delay
between the previous event and this call's `time.time()` read); if the time
elapsed since `_last_request_time` is below `rate_limit`, sleep for the
difference; then stamp `_last_request_time` with a fresh clock read (`d2 ≥ 0`
covers oversleep plus the delay before the second read). -/
def wait_rate_limit (rate_limit d1 d2 : ℚ) (s : RateLimiterState) :
    RateLimiterState :=
  let read1 := s.clock + d1
  let elapsed := read1 - s.last
  let wait := if elapsed < rate_limit then rate_limit - elapsed else 0
  let read2 := read1 + wait + d2
  { clock := read2, last := read2 }

/-! Helper lemmas about the price-store upsert. -/

theorem upsertUpdate_price_none (r inc : PriceRow) (h : inc.price = none) :
    (upsertUpdate r inc).price = r.price ∧
      (upsertUpdate r inc).available = r.available := by
  simp [upsertUpdate, h]

theorem rowKey_eq_iff (r : PriceRow) (cn : String) (ci co day : Int)
    (acc : String) (p : Option ℚ) (av : Bool) (mn : Option Int)
    (so : Option String) (pers ts : Int) :
    rowKey r = rowKey (incomingRow cn acc ci co p av mn so pers ts day) ↔
      r.competitor_name = cn ∧ r.check_in_date = ci ∧ r.check_out_date = co ∧
        r.scrape_date = day := by
  simp [rowKey, incomingRow]

theorem save_price_mem_key (store : List PriceRow) (cn acc : String)
    (ci co : Int) (p : Option ℚ) (av : Bool) (mn : Option Int)
    (so : Option String) (pers ts day : Int) :
    ∃ r ∈ save_price store cn acc ci co p av mn so pers ts day,
      r.competitor_name = cn ∧ r.check_in_date = ci ∧ r.check_out_date = co ∧
        r.scrape_date = day := by
  unfold save_price
  by_cases h : ∃ r ∈ store,
      rowKey r = rowKey (incomingRow cn acc ci co p av mn so pers ts day)
  · rw [if_pos h]
    obtain ⟨r, hr, hk⟩ := h
    refine ⟨upsertUpdate r (incomingRow cn acc ci co p av mn so pers ts day),
      List.mem_map.mpr ⟨r, hr, by rw [if_pos hk]⟩, ?_⟩
    have hfields := (rowKey_eq_iff r cn ci co day acc p av mn so pers ts).mp hk
    simpa [upsertUpdate] using hfields
  · rw [if_neg h]
    exact ⟨incomingRow cn acc ci co p av mn so pers ts day,
      List.mem_append_right _ (List.mem_singleton.mpr rfl), rfl, rfl, rfl, rfl⟩

theorem save_price_preserves_other_keys (store : List PriceRow) (cn acc : String)
    (ci co : Int) (p : Option ℚ) (av : Bool) (mn : Option Int)
    (so : Option String) (pers ts day : Int) (r : PriceRow) (hr : r ∈ store)
    (hrk : rowKey r ≠ rowKey (incomingRow cn acc ci co p av mn so pers ts day)) :
    r ∈ save_price store cn acc ci co p av mn so pers ts day := by
  unfold save_price
  by_cases h : ∃ x ∈ store,
      rowKey x = rowKey (incomingRow cn acc ci co p av mn so pers ts day)
  · rw [if_pos h]
    exact List.mem_map.mpr ⟨r, hr, by rw [if_neg hrk]⟩
  · rw [if_neg h]
    exact List.mem_append_left _ hr

/-- C1: on an upsert whose incoming price is absent (`None`), every
previously stored row — in particular the row for the conflicting key —
keeps its `price` and `available` values exactly (the `DO UPDATE SET`
CASE falls back to `prices.price` / `prices.available`). -/
theorem save_price_absent_price_preserves (store : List PriceRow)
    (cn acc : String) (ci co : Int) (av : Bool) (mn : Option Int)
    (so : Option String) (pers ts day : Int) (i : Nat) (hi : i < store.length) :
    ∃ hj : i < (save_price store cn acc ci co none av mn so pers ts day).length,
      ((save_price store cn acc ci co none av mn so pers ts day).get ⟨i, hj⟩).price
          = (store.get ⟨i, hi⟩).price ∧
        ((save_price store cn acc ci co none av mn so pers ts day).get ⟨i, hj⟩).available
          = (store.get ⟨i, hi⟩).available := by
  unfold save_price
  by_cases h : ∃ r ∈ store,
      rowKey r = rowKey (incomingRow cn acc ci co none av mn so pers ts day)
  · rw [if_pos h]
    refine ⟨by simpa using hi, ?_⟩
    simp only [List.get_eq_getElem, List.getElem_map]
    by_cases hk : rowKey store[i]
        = rowKey (incomingRow cn acc ci co none av mn so pers ts day)
    · rw [if_pos hk]
      exact upsertUpdate_price_none _ _ rfl
    · rw [if_neg hk]
      exact ⟨rfl, rfl⟩
  · rw [if_neg h]
    refine ⟨by simp only [List.length_append]; omega, ?_⟩
    simp only [List.get_eq_getElem]
    rw [List.getElem_append_left hi]
    exact ⟨rfl, rfl⟩

/-- A one-row sample store used by the upsert witnesses: price 100,
available, key ("Beerze Bulten", 100, 102, scrape day 50). -/
def sampleStore : List PriceRow :=
  [{ competitor_name := "Beerze Bulten"
     accommodation_type := "Luxe Bungalow"
     check_in_date := 100
     check_out_date := 102
     price := some 100
     available := true
     min_nights := some 2
     special_offers := none
     persons := 4
     scrape_timestamp := 10
     scrape_date := 50 }]

/-- Witness for C1: the spec's end-to-end scenario — a stored row with
price 100 / available, re-upserted with an absent price and
`available = False` for the same key, still holds price 100 / available. -/
theorem save_price_absent_price_preserves_witness :
    0 < sampleStore.length ∧
    (∃ hj : 0 < (save_price sampleStore "Beerze Bulten" "Luxe Bungalow" 100 102
        none false (some 2) none 4 11 50).length,
      ((save_price sampleStore "Beerze Bulten" "Luxe Bungalow" 100 102
          none false (some 2) none 4 11 50).get ⟨0, hj⟩).price
          = (sampleStore.get ⟨0, by decide⟩).price ∧
        ((save_price sampleStore "Beerze Bulten" "Luxe Bungalow" 100 102
            none false (some 2) none 4 11 50).get ⟨0, hj⟩).available
          = (sampleStore.get ⟨0, by decide⟩).available) ∧
    (save_price sampleStore "Beerze Bulten" "Luxe Bungalow" 100 102
        none false (some 2) none 4 11 50).map (fun r => (r.price, r.available))
      = [(some 100, true)] :=
  ⟨by decide,
    save_price_absent_price_preserves sampleStore "Beerze Bulten" "Luxe Bungalow"
      100 102 false (some 2) none 4 11 50 0 (by decide),
    by decide⟩

/-- C9: an upsert that hits an existing key unconditionally overwrites the
stored row's `accommodation_type`, `min_nights`, `special_offers`, `persons`
and `scrape_timestamp` with the incoming values, for absent and present
incoming prices alike. -/
theorem save_price_overwrites_metadata (store : List PriceRow) (cn acc : String)
    (ci co : Int) (p : Option ℚ) (av : Bool) (mn : Option Int)
    (so : Option String) (pers ts day : Int) (i : Nat) (hi : i < store.length)
    (hkey : rowKey (store.get ⟨i, hi⟩)
      = rowKey (incomingRow cn acc ci co p av mn so pers ts day)) :
    ∃ hj : i < (save_price store cn acc ci co p av mn so pers ts day).length,
      ((save_price store cn acc ci co p av mn so pers ts day).get
          ⟨i, hj⟩).accommodation_type = acc ∧
        ((save_price store cn acc ci co p av mn so pers ts day).get
          ⟨i, hj⟩).min_nights = mn ∧
        ((save_price store cn acc ci co p av mn so pers ts day).get
          ⟨i, hj⟩).special_offers = so ∧
        ((save_price store cn acc ci co p av mn so pers ts day).get
          ⟨i, hj⟩).persons = pers ∧
        ((save_price store cn acc ci co p av mn so pers ts day).get
          ⟨i, hj⟩).scrape_timestamp = ts := by
  have hconf : ∃ r ∈ store,
      rowKey r = rowKey (incomingRow cn acc ci co p av mn so pers ts day) :=
    ⟨store.get ⟨i, hi⟩, List.get_mem store i hi, hkey⟩
  unfold save_price
  rw [if_pos hconf]
  refine ⟨by simpa using hi, ?_⟩
  simp only [List.get_eq_getElem, List.getElem_map]
  rw [if_pos (by simpa using hkey)]
  simp [upsertUpdate, incomingRow]

/-- Witness for C9: upserting a present price onto the sample row overwrites
all five metadata fields. -/
theorem save_price_overwrites_metadata_witness :
    0 < sampleStore.length ∧
    rowKey (sampleStore.get ⟨0, by decide⟩)
      = rowKey (incomingRow "Beerze Bulten" "Chalet" 100 102 (some 123) false
          (some 3) (some "deal") 6 99 50) ∧
    (∃ hj : 0 < (save_price sampleStore "Beerze Bulten" "Chalet" 100 102
        (some 123) false (some 3) (some "deal") 6 99 50).length,
      ((save_price sampleStore "Beerze Bulten" "Chalet" 100 102 (some 123) false
          (some 3) (some "deal") 6 99 50).get ⟨0, hj⟩).accommodation_type
          = "Chalet" ∧
        ((save_price sampleStore "Beerze Bulten" "Chalet" 100 102 (some 123)
            false (some 3) (some "deal") 6 99 50).get ⟨0, hj⟩).min_nights
          = some 3 ∧
        ((save_price sampleStore "Beerze Bulten" "Chalet" 100 102 (some 123)
            false (some 3) (some "deal") 6 99 50).get ⟨0, hj⟩).special_offers
          = some "deal" ∧
        ((save_price sampleStore "Beerze Bulten" "Chalet" 100 102 (some 123)
            false (some 3) (some "deal") 6 99 50).get ⟨0, hj⟩).persons = 6 ∧
        ((save_price sampleStore "Beerze Bulten" "Chalet" 100 102 (some 123)
            false (some 3) (some "deal") 6 99 50).get ⟨0, hj⟩).scrape_timestamp
          = 99) :=
  ⟨by decide, by decide,
    save_price_overwrites_metadata sampleStore "Beerze Bulten" "Chalet" 100 102
      (some 123) false (some 3) (some "deal") 6 99 50 0 (by decide) (by decide)⟩

/-- C10: `save_price` stamps `scrape_date` and `scrape_timestamp` from the
wall clock taken inside the call (every row it adds or rewrites carries the
current day and capture instant; the caller has no parameter for either), so
two calls with identical caller arguments on different calendar days `d1 ≠ d2`
leave two distinct rows — one per scrape day — rather than updating one. -/
theorem save_price_clock_and_day_key (store : List PriceRow) (cn acc : String)
    (ci co : Int) (p : Option ℚ) (av : Bool) (mn : Option Int)
    (so : Option String) (pers ts1 ts2 d1 d2 : Int) (hne : d1 ≠ d2) :
    (∀ r ∈ save_price store cn acc ci co p av mn so pers ts1 d1,
        r ∈ store ∨ (r.scrape_date = d1 ∧ r.scrape_timestamp = ts1)) ∧
    (∃ r1 r2,
      r1 ∈ save_price (save_price store cn acc ci co p av mn so pers ts1 d1)
          cn acc ci co p av mn so pers ts2 d2 ∧
      r2 ∈ save_price (save_price store cn acc ci co p av mn so pers ts1 d1)
          cn acc ci co p av mn so pers ts2 d2 ∧
      r1.competitor_name = cn ∧ r1.check_in_date = ci ∧
      r1.check_out_date = co ∧ r1.scrape_date = d1 ∧
      r2.competitor_name = cn ∧ r2.check_in_date = ci ∧
      r2.check_out_date = co ∧ r2.scrape_date = d2 ∧ r1 ≠ r2) := by
  constructor
  · intro r hr
    unfold save_price at hr
    by_cases h : ∃ x ∈ store,
        rowKey x = rowKey (incomingRow cn acc ci co p av mn so pers ts1 d1)
    · rw [if_pos h] at hr
      obtain ⟨x, hx, hxr⟩ := List.mem_map.mp hr
      by_cases hk : rowKey x = rowKey (incomingRow cn acc ci co p av mn so pers ts1 d1)
      · rw [if_pos hk] at hxr
        have hday := ((rowKey_eq_iff x cn ci co d1 acc p av mn so pers ts1).mp hk).2.2.2
        refine Or.inr ?_
        rw [← hxr]
        exact ⟨by simpa [upsertUpdate] using hday, rfl⟩
      · rw [if_neg hk] at hxr
        exact Or.inl (hxr ▸ hx)
    · rw [if_neg h] at hr
      rcases List.mem_append.mp hr with hl | hs
      · exact Or.inl hl
      · refine Or.inr ?_
        rw [List.mem_singleton.mp hs]
        exact ⟨rfl, rfl⟩
  · obtain ⟨r1, hr1, hf1⟩ := save_price_mem_key store cn acc ci co p av mn so pers ts1 d1
    obtain ⟨r2, hr2, hf2⟩ := save_price_mem_key
      (save_price store cn acc ci co p av mn so pers ts1 d1) cn acc ci co p av mn so pers ts2 d2
    refine ⟨r1, r2, ?_, hr2, hf1.1, hf1.2.1, hf1.2.2.1, hf1.2.2.2,
      hf2.1, hf2.2.1, hf2.2.2.1, hf2.2.2.2, ?_⟩
    · refine save_price_preserves_other_keys _ cn acc ci co p av mn so pers ts2 d2 r1 hr1 ?_
      intro hcontra
      have h2 := ((rowKey_eq_iff r1 cn ci co d2 acc p av mn so pers ts2).mp hcontra).2.2.2
      exact hne (hf1.2.2.2.symm.trans h2)
    · intro hcontra
      exact hne (by rw [← hf1.2.2.2, ← hf2.2.2.2, hcontra])

/-- Witness for C10: saving the same caller arguments on scrape days 50 and
51 yields rows for both days. -/
theorem save_price_clock_and_day_key_witness :
    (50 : Int) ≠ 51 ∧
    ((∀ r ∈ save_price sampleStore "Beerze Bulten" "Luxe Bungalow" 100 102
          (some 120) true (some 2) none 4 20 50,
        r ∈ sampleStore ∨ (r.scrape_date = 50 ∧ r.scrape_timestamp = 20)) ∧
      (∃ r1 r2,
        r1 ∈ save_price (save_price sampleStore "Beerze Bulten" "Luxe Bungalow"
            100 102 (some 120) true (some 2) none 4 20 50)
            "Beerze Bulten" "Luxe Bungalow" 100 102 (some 120) true (some 2)
            none 4 21 51 ∧
        r2 ∈ save_price (save_price sampleStore "Beerze Bulten" "Luxe Bungalow"
            100 102 (some 120) true (some 2) none 4 20 50)
            "Beerze Bulten" "Luxe Bungalow" 100 102 (some 120) true (some 2)
            none 4 21 51 ∧
        r1.competitor_name = "Beerze Bulten" ∧ r1.check_in_date = 100 ∧
        r1.check_out_date = 102 ∧ r1.scrape_date = 50 ∧
        r2.competitor_name = "Beerze Bulten" ∧ r2.check_in_date = 100 ∧
        r2.check_out_date = 102 ∧ r2.scrape_date = 51 ∧ r1 ≠ r2)) :=
  ⟨by decide,
    save_price_clock_and_day_key sampleStore "Beerze Bulten" "Luxe Bungalow"
      100 102 (some 120) true (some 2) none 4 20 21 50 51 (by decide)⟩

/-! Retry-loop helper lemmas. -/

theorem retryLoop_all_raise (cn acc : String) (pers : Int) (ci co : Int)
    (outcomes : List AttemptOutcome) (hne : outcomes ≠ [])
    (hfail : ∀ o ∈ outcomes, o = .timeout ∨ o = .failure) :
    retryLoop cn acc pers ci co outcomes = (outcomes.length, none, 1) := by
  induction outcomes with
  | nil => exact absurd rfl hne
  | cons o rest ih =>
    cases rest with
    | nil =>
      rcases hfail o (List.mem_cons_self o []) with h | h <;> subst h <;> rfl
    | cons o2 rest2 =>
      have hr := ih (by simp) (fun x hx => hfail x (List.mem_cons_of_mem o hx))
      rcases hfail o (List.mem_cons_self _ _) with h | h <;> subst h <;>
        simp [retryLoop, hr]

theorem retryLoop_all_noResult (cn acc : String) (pers : Int) (ci co : Int)
    (outcomes : List AttemptOutcome)
    (hnr : ∀ o ∈ outcomes, o = .noResult) :
    retryLoop cn acc pers ci co outcomes = (outcomes.length, none, 0) := by
  induction outcomes with
  | nil => rfl
  | cons o rest ih =>
    have ho := hnr o (List.mem_cons_self _ _)
    subst ho
    cases rest with
    | nil => rfl
    | cons o2 rest2 =>
      have hr := ih (fun x hx => hnr x (List.mem_cons_of_mem _ hx))
      simp [retryLoop, hr]

/-- Counterexample to C2 as stated: a run whose single window's extraction
returns `None` on its only attempt captures zero records after all retries,
yet the error counter stays 0 and the one logged row carries status
"success", where the claim requires "failed". -/
theorem run_zero_records_logged_success :
    (run "Beerze Bulten" "Luxe Bungalow" 4 [⟨100, 102, [.noResult]⟩]).1 = [] ∧
    (run "Beerze Bulten" "Luxe Bungalow" 4 [⟨100, 102, [.noResult]⟩]).2.1 = 0 ∧
    (run "Beerze Bulten" "Luxe Bungalow" 4 [⟨100, 102, [.noResult]⟩]).2.2
      = [⟨"Beerze Bulten", "success", 0⟩] ∧
    "success" ≠ "failed" := by
  refine ⟨rfl, rfl, rfl, by decide⟩

/-- C2 (amended): `BaseScraper.run` logs exactly one scrape-log row carrying
the captured record count and the status
`success ↔ error counter = 0` (even when zero records were captured),
`partial ↔ error counter ≠ 0 and some record was captured`,
`failed ↔ error counter ≠ 0 and no record was captured`;
`HolidayAgentScraper.run_efficient` also logs exactly one row, but its status
is `success ↔ error counter = 0` and `failed` otherwise — it never reports
`partial`, even when records were captured before the error. -/
theorem run_status_classification (errors : Nat) (results : List ScrapeRecord)
    (cn acc : String) (pers : Int) (windows : List DateWindowRun)
    (arrivals : List (Option HAArrival)) :
    (runStatus errors results = "success" ↔ errors = 0) ∧
    (runStatus errors results = "partial" ↔ errors ≠ 0 ∧ results ≠ []) ∧
    (runStatus errors results = "failed" ↔ errors ≠ 0 ∧ results = []) ∧
    (run cn acc pers windows).2.2 =
      [⟨cn, runStatus (run cn acc pers windows).2.1 (run cn acc pers windows).1,
        (run cn acc pers windows).1.length⟩] ∧
    (haStatus errors = "success" ↔ errors = 0) ∧
    (haStatus errors = "failed" ↔ errors ≠ 0) ∧
    (run_efficient cn acc pers arrivals).2.2 =
      [⟨cn, haStatus (run_efficient cn acc pers arrivals).2.1,
        (run_efficient cn acc pers arrivals).1.length⟩] := by
  refine ⟨?_, ?_, ?_, rfl, ?_, ?_, rfl⟩ <;> by_cases he : errors = 0 <;>
      by_cases hr : results = [] <;> simp [runStatus, haStatus, he, hr]

/-- Counterexample to C3 as stated: a window whose extraction fails on every
attempt by returning `None` — the "scraping failed entirely" result the
`scrape_price` doc string documents — under `max_retries = 3` performs
exactly 3 attempts and yields no record, but the run's error counter grows
by 0, not by 1. -/
theorem retry_noresult_window_adds_no_error :
    retryLoop "Beerze Bulten" "Luxe Bungalow" 4 100 102
      [.noResult, .noResult, .noResult] = (3, none, 0) ∧ (0 : Nat) ≠ 1 := by
  refine ⟨rfl, by decide⟩

/-- C3 (amended): a window all of whose attempts raise (a timeout or any
other exception) triggers exactly `max_retries` extraction attempts, adds
exactly one to the run's error counter, and the run continues with the
remaining windows; a window all of whose attempts return `None` likewise
performs exactly `max_retries` attempts and continues with the remaining
windows, but leaves the error counter unchanged. -/
theorem retry_exhaustion_bound (cn acc : String) (pers : Int)
    (maxRetries : Nat) (hpos : 0 < maxRetries)
    (w wn : DateWindowRun) (ws : List DateWindowRun)
    (hw : w.attempts.length = maxRetries)
    (hfail : ∀ o ∈ w.attempts, o = .timeout ∨ o = .failure)
    (hwn : wn.attempts.length = maxRetries)
    (hnr : ∀ o ∈ wn.attempts, o = .noResult) :
    retryLoop cn acc pers w.check_in w.check_out w.attempts
        = (maxRetries, none, 1) ∧
    (runWindows cn acc pers (w :: ws)).1 = (runWindows cn acc pers ws).1 ∧
    (runWindows cn acc pers (w :: ws)).2 = (runWindows cn acc pers ws).2 + 1 ∧
    retryLoop cn acc pers wn.check_in wn.check_out wn.attempts
        = (maxRetries, none, 0) ∧
    (runWindows cn acc pers (wn :: ws)).1 = (runWindows cn acc pers ws).1 ∧
    (runWindows cn acc pers (wn :: ws)).2 = (runWindows cn acc pers ws).2 := by
  have hne : w.attempts ≠ [] := by
    intro hcon
    rw [hcon] at hw
    simp only [List.length_nil] at hw
    omega
  have h1 := retryLoop_all_raise cn acc pers w.check_in w.check_out w.attempts
    hne hfail
  have h2 := retryLoop_all_noResult cn acc pers wn.check_in wn.check_out
    wn.attempts hnr
  rw [hw] at h1
  rw [hwn] at h2
  refine ⟨h1, ?_, ?_, h2, ?_, ?_⟩ <;> simp [runWindows, h1, h2, Nat.add_comm]

/-- Witness for C3 (amended) at `max_retries = 2`: one window raising on both
attempts, one window returning `None` on both attempts, followed by a window
that succeeds. -/
theorem retry_exhaustion_bound_witness :
    ((0 : Nat) < 2 ∧
      ([AttemptOutcome.timeout, .failure].length = 2) ∧
      (∀ o ∈ [AttemptOutcome.timeout, .failure], o = .timeout ∨ o = .failure) ∧
      ([AttemptOutcome.noResult, .noResult].length = 2) ∧
      (∀ o ∈ [AttemptOutcome.noResult, .noResult], o = .noResult)) ∧
    (retryLoop "c" "a" 4 100 102 [.timeout, .failure] = (2, none, 1) ∧
      (runWindows "c" "a" 4 [⟨100, 102, [.timeout, .failure]⟩,
          ⟨200, 202, [.ok (some 150) true (some 2) none, .noResult]⟩]).1
        = (runWindows "c" "a" 4
          [⟨200, 202, [.ok (some 150) true (some 2) none, .noResult]⟩]).1 ∧
      (runWindows "c" "a" 4 [⟨100, 102, [.timeout, .failure]⟩,
          ⟨200, 202, [.ok (some 150) true (some 2) none, .noResult]⟩]).2
        = (runWindows "c" "a" 4
          [⟨200, 202, [.ok (some 150) true (some 2) none, .noResult]⟩]).2 + 1 ∧
      retryLoop "c" "a" 4 100 103 [.noResult, .noResult] = (2, none, 0) ∧
      (runWindows "c" "a" 4 [⟨100, 103, [.noResult, .noResult]⟩,
          ⟨200, 202, [.ok (some 150) true (some 2) none, .noResult]⟩]).1
        = (runWindows "c" "a" 4
          [⟨200, 202, [.ok (some 150) true (some 2) none, .noResult]⟩]).1 ∧
      (runWindows "c" "a" 4 [⟨100, 103, [.noResult, .noResult]⟩,
          ⟨200, 202, [.ok (some 150) true (some 2) none, .noResult]⟩]).2
        = (runWindows "c" "a" 4
          [⟨200, 202, [.ok (some 150) true (some 2) none, .noResult]⟩]).2) :=
  ⟨⟨by decide, by decide, by decide, by decide, by decide⟩,
    retry_exhaustion_bound "c" "a" 4 2 (by decide)
      ⟨100, 102, [.timeout, .failure]⟩ ⟨100, 103, [.noResult, .noResult]⟩
      [⟨200, 202, [.ok (some 150) true (some 2) none, .noResult]⟩]
      (by decide) (by decide) (by decide) (by decide)⟩

/-! Date-window generator lemmas. -/

theorem dedupWindows_subset (l : List DateWindow) (seen : List (Int × Int)) :
    ∀ w ∈ dedupWindows l seen, w ∈ l := by
  induction l generalizing seen with
  | nil =>
    intro w hw
    simp [dedupWindows] at hw
  | cons d ds ih =>
    intro w hw
    by_cases h : windowKey d ∈ seen
    · rw [dedupWindows, if_pos h] at hw
      exact List.mem_cons_of_mem _ (ih seen w hw)
    · rw [dedupWindows, if_neg h] at hw
      rcases List.mem_cons.mp hw with h1 | h1
      · exact h1 ▸ List.mem_cons_self _ _
      · exact List.mem_cons_of_mem _ (ih _ w h1)

theorem dedupWindows_keys_nodup (l : List DateWindow) (seen : List (Int × Int)) :
    ((dedupWindows l seen).map windowKey).Nodup ∧
      ∀ k ∈ (dedupWindows l seen).map windowKey, k ∉ seen := by
  induction l generalizing seen with
  | nil => simp [dedupWindows]
  | cons d ds ih =>
    by_cases h : windowKey d ∈ seen
    · rw [dedupWindows, if_pos h]
      exact ih seen
    · have ih2 := ih (windowKey d :: seen)
      rw [dedupWindows, if_neg h]
      constructor
      · rw [List.map_cons, List.nodup_cons]
        refine ⟨fun hmem => (ih2.2 _ hmem) (List.mem_cons_self _ _), ih2.1⟩
      · rw [List.map_cons]
        intro k hk
        rcases List.mem_cons.mp hk with h1 | h1
        · exact h1 ▸ h
        · exact fun hks => (ih2.2 k h1) (List.mem_cons_of_mem _ hks)

theorem rawWindows_nights (today : Int) (days_ahead_list : List Int)
    (stay_types : List (String × StayConfig)) :
    ∀ w ∈ rawWindows today days_ahead_list stay_types,
      w.check_out - w.check_in = w.nights := by
  intro w hw
  unfold rawWindows at hw
  rw [List.mem_flatten] at hw
  obtain ⟨sub, hsub, hwsub⟩ := hw
  rw [List.mem_map] at hsub
  obtain ⟨da, _, rfl⟩ := hsub
  rw [List.mem_map] at hwsub
  obtain ⟨st, _, rfl⟩ := hwsub
  simp

/-- C4: every window returned by `generate_check_dates` satisfies
`check_out - check_in = nights` for its stay type, the
(check_in, check_out) pairs of the returned list are pairwise distinct, and
the list is sorted by `check_in`. -/
theorem generate_check_dates_spec (today : Int) (days_ahead_list : List Int)
    (stay_types : List (String × StayConfig)) :
    (∀ w ∈ generate_check_dates today days_ahead_list stay_types,
        w.check_out - w.check_in = w.nights) ∧
    ((generate_check_dates today days_ahead_list stay_types).map
        windowKey).Nodup ∧
    (generate_check_dates today days_ahead_list stay_types).Sorted
      (fun a b => a.check_in ≤ b.check_in) := by
  unfold generate_check_dates
  have hperm := List.perm_insertionSort
    (fun a b : DateWindow => a.check_in ≤ b.check_in)
    (dedupWindows (rawWindows today days_ahead_list stay_types) [])
  refine ⟨?_, ?_, List.sorted_insertionSort _ _⟩
  · intro w hw
    exact rawWindows_nights today days_ahead_list stay_types w
      (dedupWindows_subset _ _ w (hperm.mem_iff.mp hw))
  · exact ((hperm.map windowKey).nodup_iff).mpr
      (dedupWindows_keys_nodup (rawWindows today days_ahead_list stay_types) []).1

/-- C5: whenever `_resolve_date` resolves a parseable year-less header
`(day, month)` against a reference date, the resolved date uses one of the
candidate years {reference year, reference year + 1} and minimizes the
absolute day distance to the reference date over the valid candidates. -/
theorem resolve_date_minimizes (day : Int) (monthStr : String)
    (refY refM refD : Int) (month : Int) (hm : month_map monthStr = some month)
    (ord : Int) (hres : resolve_date day monthStr refY refM refD = some ord) :
    ∃ y ∈ ([refY, refY + 1] : List Int), isValidDate y month day ∧
      ord = toOrdinal y month day ∧
      ∀ y2 ∈ ([refY, refY + 1] : List Int), isValidDate y2 month day →
        |ord - toOrdinal refY refM refD|
          ≤ |toOrdinal y2 month day - toOrdinal refY refM refD| := by
  unfold resolve_date at hres
  rw [hm] at hres
  by_cases h1 : isValidDate refY month day <;>
    by_cases h2 : isValidDate (refY + 1) month day
  · by_cases hlt : |toOrdinal (refY + 1) month day - toOrdinal refY refM refD|
        < |toOrdinal refY month day - toOrdinal refY refM refD|
    · simp only [bestCandidate, if_pos h1, if_pos h2, if_pos hlt,
        Option.map_some'] at hres
      have heq := Option.some.inj hres
      subst heq
      refine ⟨refY + 1, by simp, h2, rfl, ?_⟩
      intro y2 hy2 hv2
      rcases List.mem_cons.mp hy2 with rfl | hy2b
      · exact le_of_lt hlt
      · rw [List.mem_singleton.mp hy2b]
    · simp only [bestCandidate, if_pos h1, if_pos h2, if_neg hlt,
        Option.map_some'] at hres
      have heq := Option.some.inj hres
      subst heq
      refine ⟨refY, by simp, h1, rfl, ?_⟩
      intro y2 hy2 hv2
      rcases List.mem_cons.mp hy2 with rfl | hy2b
      · exact le_rfl
      · rw [List.mem_singleton.mp hy2b]
        exact le_of_not_lt hlt
  · simp only [bestCandidate, if_pos h1, if_neg h2, Option.map_some'] at hres
    have heq := Option.some.inj hres
    subst heq
    refine ⟨refY, by simp, h1, rfl, ?_⟩
    intro y2 hy2 hv2
    rcases List.mem_cons.mp hy2 with rfl | hy2b
    · exact le_rfl
    · exact absurd hv2 (List.mem_singleton.mp hy2b ▸ h2)
  · simp only [bestCandidate, if_neg h1, if_pos h2, Option.map_some'] at hres
    have heq := Option.some.inj hres
    subst heq
    refine ⟨refY + 1, by simp, h2, rfl, ?_⟩
    intro y2 hy2 hv2
    rcases List.mem_cons.mp hy2 with rfl | hy2b
    · exact absurd hv2 h1
    · rw [List.mem_singleton.mp hy2b]
  · simp only [bestCandidate, if_neg h1, if_neg h2, Option.map_none'] at hres
    exact absurd hres (by simp)

/-- Witness for C5: the spec's scenario — header "27 feb" with reference date
2026-01-05 resolves to 2026-02-27 (53 days from the reference), not
2025-02-27 (312 days away, and outside the candidate year set anyway). -/
theorem resolve_date_minimizes_witness :
    month_map "feb" = some 2 ∧
    resolve_date 27 "feb" 2026 1 5 = some (toOrdinal 2026 2 27) ∧
    toOrdinal 2026 2 27 ≠ toOrdinal 2025 2 27 ∧
    |toOrdinal 2026 2 27 - toOrdinal 2026 1 5| = 53 ∧
    |toOrdinal 2025 2 27 - toOrdinal 2026 1 5| = 312 ∧
    (∃ y ∈ ([2026, 2026 + 1] : List Int), isValidDate y 2 27 ∧
      toOrdinal 2026 2 27 = toOrdinal y 2 27 ∧
      ∀ y2 ∈ ([2026, 2026 + 1] : List Int), isValidDate y2 2 27 →
        |toOrdinal 2026 2 27 - toOrdinal 2026 1 5|
          ≤ |toOrdinal y2 2 27 - toOrdinal 2026 1 5|) :=
  ⟨by decide, by decide, by decide, by decide, by decide,
    resolve_date_minimizes 27 "feb" 2026 1 5 2 (by decide)
      (toOrdinal 2026 2 27) (by decide)⟩

set_option linter.unusedVariables false in
/-- C6: under the monotone-clock model of `_wait_rate_limit` (the environment
delays `d1`, `d2` are non-negative, `time.sleep` sleeps at least the requested
duration), the new `_last_request_time` stamp — taken when the function
returns, just before the outbound request is issued — is at least
`rate_limit` seconds after the previous stamp: consecutive requests are
spaced by at least the configured minimum. -/
theorem wait_rate_limit_spacing (rate_limit d1 d2 : ℚ) (s : RateLimiterState)
    (h1 : 0 ≤ d1) (h2 : 0 ≤ d2) :
    rate_limit ≤ (wait_rate_limit rate_limit d1 d2 s).last - s.last := by
  unfold wait_rate_limit
  by_cases hlt : s.clock + d1 - s.last < rate_limit
  · simp only [if_pos hlt]
    linarith
  · simp only [if_neg hlt]
    linarith [le_of_not_lt hlt]

/-- Witness for C6: with `rate_limit = 5`, starting from clock 3 and a last
request at time 0, the next stamp is at least 5 seconds after the previous
one. -/
theorem wait_rate_limit_spacing_witness :
    (0 : ℚ) ≤ 1 ∧ (0 : ℚ) ≤ 2 ∧
    (5 : ℚ) ≤ (wait_rate_limit 5 1 2 ⟨3, 0⟩).last - (RateLimiterState.mk 3 0).last :=
  ⟨by norm_num, by norm_num,
    wait_rate_limit_spacing 5 1 2 ⟨3, 0⟩ (by norm_num) (by norm_num)⟩

/-! Night-count whitelist lemmas for the two batch adapters. -/

theorem haDepartureRecord_nights (cn acc : String) (pers : Int) (checkin : Int)
    (d : HADeparture) (r : ScrapeRecord)
    (h : haDepartureRecord cn acc pers checkin d = some r) :
    ∃ n, r.min_nights = some n ∧ n ∈ ([2, 3, 4, 5, 7] : List Int) := by
  simp only [haDepartureRecord] at h
  split at h
  · split at h
    · exact absurd h (by simp)
    · exact ⟨d.nights, by rw [← Option.some.inj h], by assumption⟩
  · exact absurd h (by simp)

theorem haLoop_nights (cn acc : String) (pers : Int)
    (arrivals : List (Option HAArrival)) :
    ∀ r ∈ (haLoop cn acc pers arrivals).1,
      ∃ n, r.min_nights = some n ∧ n ∈ ([2, 3, 4, 5, 7] : List Int) := by
  induction arrivals with
  | nil =>
    intro r hr
    simp [haLoop] at hr
  | cons a rest ih =>
    intro r hr
    cases a with
    | none => simp [haLoop] at hr
    | some a =>
      cases ha : a.arrival_date with
      | none =>
        simp only [haLoop, ha] at hr
        exact ih r hr
      | some checkin =>
        simp only [haLoop, ha] at hr
        rcases List.mem_append.mp hr with h | h
        · obtain ⟨d, _, hrec⟩ := List.mem_filterMap.mp h
          exact haDepartureRecord_nights cn acc pers checkin d r hrec
        · exact ih r h

theorem wzPageLoop_nights (cn acc : String) (pers : Int)
    (rs : List WZParsed) (seen : List (Int × Int)) :
    ∀ r ∈ (wzPageLoop cn acc pers rs seen).1,
      ∃ n, r.min_nights = some n ∧ n ∈ STAY_DURATIONS := by
  induction rs generalizing seen with
  | nil =>
    intro r hr
    simp [wzPageLoop] at hr
  | cons x xs ih =>
    intro r hr
    by_cases hn : x.min_nights ∈ STAY_DURATIONS
    · by_cases hs : (x.check_in_date, x.check_out_date) ∈ seen
      · simp only [wzPageLoop, if_pos hn, if_pos hs] at hr
        exact ih seen r hr
      · simp only [wzPageLoop, if_pos hn, if_neg hs] at hr
        rcases List.mem_cons.mp hr with rfl | hr2
        · exact ⟨x.min_nights, rfl, hn⟩
        · exact ih _ r hr2
    · simp only [wzPageLoop, if_neg hn] at hr
      exact ih seen r hr

theorem wzRun_nights (cn acc : String) (pers : Int)
    (pages : List (List WZParsed)) (seen : List (Int × Int)) :
    ∀ r ∈ wzRun cn acc pers pages seen,
      ∃ n, r.min_nights = some n ∧ n ∈ STAY_DURATIONS := by
  induction pages generalizing seen with
  | nil =>
    intro r hr
    simp [wzRun] at hr
  | cons pg pgs ih =>
    intro r hr
    simp only [wzRun] at hr
    rcases List.mem_append.mp hr with h | h
    · exact wzPageLoop_nights cn acc pers pg seen r h
    · exact ih _ r h

/-- Counterexample to C7 as stated: the REST-batch adapter (Variant B) filter
is `if nights not in (2, 3, 4, 5, 7): continue`, so a 5-night departure is
persisted, and 5 is not in the claimed whitelist {2, 3, 4, 7}. -/
theorem ha_persists_five_nights :
    ((haLoop "Camping Ommerland" "Bos Villa (6p)" 4
        [some ⟨some 100, [⟨some 105, 5, some 500, 0, 0, 1⟩]⟩]).1.map
        (fun r => r.min_nights)) = [some 5] ∧
    (5 : Int) ∉ ([2, 3, 4, 7] : List Int) := by
  refine ⟨by decide, by decide⟩

/-- C7 (amended): every record the rendered-matrix adapter (Variant C)
persists has its night count in the whitelist `STAY_DURATIONS` =
{2, 3, 4, 7}; every record the REST-batch adapter (Variant B) persists has
its night count in {2, 3, 4, 5, 7} — Variant B's filter additionally retains
5-night stays. -/
theorem adapter_night_count_whitelists (cn acc cn2 acc2 : String)
    (pers pers2 : Int) (arrivals : List (Option HAArrival))
    (pages : List (List WZParsed)) (seen : List (Int × Int)) :
    (∀ r ∈ (haLoop cn acc pers arrivals).1,
        ∃ n, r.min_nights = some n ∧ n ∈ ([2, 3, 4, 5, 7] : List Int)) ∧
    (∀ r ∈ wzRun cn2 acc2 pers2 pages seen,
        ∃ n, r.min_nights = some n ∧ n ∈ STAY_DURATIONS) :=
  ⟨haLoop_nights cn acc pers arrivals, wzRun_nights cn2 acc2 pers2 pages seen⟩

/-- A stored row with a NULL price used by the C8 counterexample: scrape
day 5, a 2-night stay. -/
def nullPriceRow : PriceRow :=
  { competitor_name := "De Boshoek"
    accommodation_type := "Chalet"
    check_in_date := 10
    check_out_date := 12
    price := none
    available := false
    min_nights := some 2
    special_offers := none
    persons := 4
    scrape_timestamp := 0
    scrape_date := 5 }

/-- Counterexample to C8 as stated: a stored row whose scrape_date matches
the requested day and whose computed night count (2) is in the accepted set
is nonetheless omitted by `get_comparison_data`, because the query also
filters on `price IS NOT NULL` and this row's price is NULL. -/
theorem get_comparison_data_omits_null_price :
    nullPriceRow.scrape_date = 5 ∧
    (nullPriceRow.check_out_date - nullPriceRow.check_in_date)
      ∈ ([2, 3, 4, 7] : List Int) ∧
    get_comparison_data [nullPriceRow] 5 [2, 3, 4, 7] = [] := by
  refine ⟨rfl, by decide, by decide⟩

/-- C8 (amended): for every scrape day and accepted night-count set,
`get_comparison_data` returns exactly the stored rows whose scrape_date
equals that day, whose price is non-NULL, and whose night count — computed
by date arithmetic as check-out minus check-in — lies in the accepted set;
no stored row meeting these three conditions is omitted. -/
theorem get_comparison_data_mem (store : List PriceRow) (d : Int)
    (durations : List Int) (r : PriceRow) :
    r ∈ get_comparison_data store d durations ↔
      r ∈ store ∧ r.scrape_date = d ∧ r.price ≠ none ∧
        (r.check_out_date - r.check_in_date) ∈ durations := by
  unfold get_comparison_data
  rw [(List.perm_insertionSort comparisonLE _).mem_iff, List.mem_filter]
  simp only [decide_eq_true_eq]

end ConcurrentieCheck
